import Mathlib

/-!
Verification development for the node-spqs priority queue service.

The embedding translates the TypeScript sources:
  - src/config/index.ts        (DEFAULT_CONFIG, isValidPriority)
  - src/services/RedisManager.ts (RedisManager: ordering index + dispatch engine)
  - src/services/RedisManager.ts (PriorityQueueService: orchestration facade)
  - src/utils/metrics.ts       (MetricsCollector)

Modelling conventions:
  - Timestamps (`Date.now()`) are `Nat` values in milliseconds, supplied
    explicitly as a `now` argument to each operation that reads the clock.
  - Redis sorted sets (one per priority class, score = arrival time) are
    embedded as `List String` ordered oldest-first: `zAdd` with a
    nondecreasing clock appends at the end, `zRange key 0 (n-1)` is
    `List.take n`, `zCard` is `List.length`, `zRem` is `List.erase`.
  - The Redis key-value store for metadata / latency keys is an
    association list; `SET` replaces any previous binding of the key.
  - JavaScript numbers are embedded as `Nat`/`Int`/`Rat` (exact); the
    float expressions `x * 0.9 + y * 0.1` become exact rational
    arithmetic, and `Math.floor(a * (b / c))` on naturals becomes `Nat`
    division `a * b / c`.
  - JavaScript truthiness on optional numbers (`x || y`) is `truthyOr`:
    it yields `y` when `x` is `undefined` (`none`) or `0`.
  - SQS is the opaque external transport: its returned data (fresh
    message id on send, batch of messages on receive) is passed in as an
    argument, and every call the facade makes to it is recorded in a
    `sqsCalls` log so that "no transport call happened" is expressible.
-/

namespace SPQS

/-- JS `x || y` for an optional number: `undefined` and `0` are falsy. -/
def truthyOr : Option Nat → Nat → Nat
  | none, y => y
  | some t, y => if t = 0 then y else t

/-- Drop every binding of `key` from an association-list store
(key-value `DEL`). -/
def eraseKey {κ α : Type} [DecidableEq κ] : List (κ × α) → κ → List (κ × α)
  | [], _ => []
  | kv :: rest, key => if kv.1 = key then eraseKey rest key else kv :: eraseKey rest key

/-- Key-value `SET`: bind `key` to `v`, replacing any previous binding. -/
def setValue {κ α : Type} [DecidableEq κ] (store : List (κ × α)) (key : κ) (v : α) :
    List (κ × α) :=
  (key, v) :: eraseKey store key

/-- Key-value `GET`: first binding of `key`, if any. -/
def getValue {κ α : Type} [DecidableEq κ] (store : List (κ × α)) (key : κ) : Option α :=
  match store with
  | [] => none
  | kv :: rest => if kv.1 = key then some kv.2 else getValue rest key

/-- Message metadata record (src/types, `MessageMetadata`). -/
structure MessageMetadata where
  id : String
  priority : Nat
  sentAt : Nat
  firstReceivedAt : Option Nat := none
  lastReceivedAt : Option Nat := none
  receiveCount : Nat
deriving DecidableEq, Repr

/--
State of the Redis ordering index (src/services/RedisManager.ts):
per-class sorted sets of message ids (index = priority class, each list
oldest-first), the metadata key-value records, and the per-class
processing-latency keys (`pq:metrics:latency:<priority>`).
-/
structure RedisState where
  queues : List (List String)
  metadata : List (String × MessageMetadata)
  latency : List (Nat × Rat)
deriving DecidableEq

namespace RedisManager

/-- `RedisManager.addMessage`: store metadata (with `sentAt := now`,
`receiveCount := 0`) and append the id to the class's sorted set. -/
def addMessage (r : RedisState) (messageId : String) (priority : Nat)
    (metadata : MessageMetadata) (now : Nat) : RedisState :=
  let stored := { metadata with sentAt := now, receiveCount := 0 }
  { r with
    metadata := setValue r.metadata messageId stored,
    queues := r.queues.set priority ((r.queues.getD priority []) ++ [messageId]) }

/-- `RedisManager.getMessageMetadata`. -/
def getMessageMetadata (r : RedisState) (messageId : String) : Option MessageMetadata :=
  getValue r.metadata messageId

/-- `RedisManager.markMessageAsReceived`: no-op when the metadata record
is absent; otherwise write back the record with `lastReceivedAt := now`,
`firstReceivedAt := metadata.firstReceivedAt || now` and
`receiveCount := (metadata.receiveCount || 0) + 1` (on `Nat`,
`rc || 0` is `rc`). -/
def markMessageAsReceived (r : RedisState) (messageId : String) (now : Nat) : RedisState :=
  match getMessageMetadata r messageId with
  | none => r
  | some metadata =>
    let updatedMetadata :=
      { metadata with
        lastReceivedAt := some now,
        firstReceivedAt := some (truthyOr metadata.firstReceivedAt now),
        receiveCount := metadata.receiveCount + 1 }
    { r with metadata := setValue r.metadata messageId updatedMetadata }

/-- `RedisManager.removeMessage`: `zRem` from the class's sorted set and
delete the metadata key. -/
def removeMessage (r : RedisState) (messageId : String) (priority : Nat) : RedisState :=
  { r with
    queues := r.queues.set priority ((r.queues.getD priority []).erase messageId),
    metadata := eraseKey r.metadata messageId }

/-- `RedisManager.getQueueDepthByPriority`: `zCard` of every class
`0 .. priorityLevels - 1`, as a list indexed by class. -/
def getQueueDepthByPriority (r : RedisState) (priorityLevels : Nat) : List Nat :=
  (List.range priorityLevels).map (fun priority => (r.queues.getD priority []).length)

/-- `RedisManager.storeProcessingLatency`: exponential moving average
`0.9 * current + 0.1 * sample` (sample taken verbatim when the stored
value is `0` or absent). Dead code in the repository: no caller exists. -/
def storeProcessingLatency (r : RedisState) (priority : Nat) (latency : Rat) : RedisState :=
  let currentLatency := match getValue r.latency priority with
    | some v => v
    | none => 0
  let newLatency := if currentLatency = 0
    then latency
    else currentLatency * (9 / 10 : Rat) + latency * (1 / 10 : Rat)
  { r with latency := setValue r.latency priority newLatency }

/-- `RedisManager.getProcessingLatencyByPriority`: for every class,
`Math.round(parseFloat(value))` of the stored latency key, `0` when the
key is absent. -/
def getProcessingLatencyByPriority (r : RedisState) (priorityLevels : Nat) : List Int :=
  (List.range priorityLevels).map (fun priority =>
    match getValue r.latency priority with
    | some v => round v
    | none => 0)

/-- Normal-mode loop of `RedisManager.getNextMessages` (lines 209-230):
strict-priority greedy scan in ascending class order, taking
`min (maxMessages - result.length) zCard` oldest ids per class and
breaking as soon as `maxMessages` ids are collected. -/
def normalLoop (maxMessages : Nat) : List (List String) → List String → List String
  | [], result => result
  | q :: rest, result =>
    if 0 < q.length then
      let toTake := min (maxMessages - result.length) q.length
      if 0 < toTake then
        let result1 := result ++ q.take toTake
        if maxMessages ≤ result1.length then result1
        else normalLoop maxMessages rest result1
      else normalLoop maxMessages rest result
    else normalLoop maxMessages rest result

/-- Starvation-prevention loop of `RedisManager.getNextMessages`
(lines 164-208): per non-empty class, allocate
`min (max 1 (floor (remaining * depth / total))) depth (remaining - allocated)`
oldest ids, in ascending class order, breaking once `allocated`
reaches `remaining`. -/
def starvationLoop (remaining total : Nat) :
    List (List String) → List String → Nat → List String
  | [], result, _allocated => result
  | q :: rest, result, allocated =>
    if 0 < q.length then
      let proportionalAllocation := remaining * q.length / total
      let toTake := min (min (max 1 proportionalAllocation) q.length) (remaining - allocated)
      if 0 < toTake then
        let messages := q.take toTake
        let result1 := result ++ messages
        let allocated1 := allocated + messages.length
        if remaining ≤ allocated1 then result1
        else starvationLoop remaining total rest result1 allocated1
      else starvationLoop remaining total rest result allocated
    else starvationLoop remaining total rest result allocated

/-- Sum of the per-class sizes (`queueSizes.reduce((sum, size) => sum + size, 0)`). -/
def sumSizes (sizes : List Nat) : Nat :=
  sizes.foldl (fun sum size => sum + size) 0

/-- `RedisManager.getNextMessages` (lines 137-233): read all class
depths, enter starvation-prevention mode when some class of index
`1 .. N-1` has depth strictly above `starvationThreshold`, then run the
corresponding selection loop. -/
def getNextMessages (r : RedisState) (maxMessages starvationThreshold : Nat) : List String :=
  let queueSizes := r.queues.map List.length
  let preventStarvation := (queueSizes.drop 1).any (fun size => starvationThreshold < size)
  if preventStarvation then
    let totalMessages := sumSizes queueSizes
    let messagesRemaining := min maxMessages totalMessages
    if 0 < messagesRemaining then
      starvationLoop messagesRemaining totalMessages r.queues [] 0
    else []
  else
    normalLoop maxMessages r.queues []

end RedisManager

/-- `isValidPriority` (src/config/index.ts): the priority must be an
integer in `[0, priorityLevels)`. The embedding uses `Int`, so the
`Number.isInteger` conjunct is always satisfied. -/
def isValidPriority (priority : Int) (priorityLevels : Nat) : Bool :=
  0 ≤ priority && priority < (priorityLevels : Int)

/-- In-memory state of the `MetricsCollector` (src/utils/metrics.ts):
per-class depth, per-class rounded smoothed latency, and the
start-of-processing timestamps map. -/
structure MetricsState where
  priorityLevels : Nat
  queueDepthByPriority : List Nat
  processingLatencyByPriority : List Int
  messageProcessingStartTimes : List (String × Nat)
deriving DecidableEq

namespace MetricsCollector

/-- `MetricsCollector.initializeMetrics` composed with the constructor:
zero depth and latency for every class, empty start-times map. -/
def initializeMetrics (priorityLevels : Nat) : MetricsState :=
  { priorityLevels := priorityLevels,
    queueDepthByPriority := List.replicate priorityLevels 0,
    processingLatencyByPriority := List.replicate priorityLevels 0,
    messageProcessingStartTimes := [] }

/-- `MetricsCollector.updateQueueDepth`: set the class's depth, ignoring
out-of-range classes. -/
def updateQueueDepth (m : MetricsState) (priority depth : Nat) : MetricsState :=
  if priority < m.priorityLevels then
    { m with queueDepthByPriority := m.queueDepthByPriority.set priority depth }
  else m

/-- `MetricsCollector.startMessageProcessing`: record `now` for the id. -/
def startMessageProcessing (m : MetricsState) (messageId : String) (now : Nat) : MetricsState :=
  { m with messageProcessingStartTimes := setValue m.messageProcessingStartTimes messageId now }

/-- `MetricsCollector.endMessageProcessing`: if a (truthy, so nonzero)
start time exists and the class is in range, fold the elapsed time into
the class's exponentially-smoothed latency (`0.9 * old + 0.1 * sample`,
rounded; the sample itself when the old value is `0`) and drop the start
record; otherwise do nothing. -/
def endMessageProcessing (m : MetricsState) (messageId : String) (priority : Nat)
    (now : Nat) : MetricsState :=
  match getValue m.messageProcessingStartTimes messageId with
  | none => m
  | some startTime =>
    if startTime = 0 then m
    else if priority < m.priorityLevels then
      let processingTime : Int := (now : Int) - (startTime : Int)
      let currentLatency := m.processingLatencyByPriority.getD priority 0
      let newLatency : Rat := if currentLatency = 0
        then (processingTime : Rat)
        else (currentLatency : Rat) * (9 / 10 : Rat) + (processingTime : Rat) * (1 / 10 : Rat)
      { m with
        processingLatencyByPriority :=
          m.processingLatencyByPriority.set priority (round newLatency),
        messageProcessingStartTimes :=
          eraseKey m.messageProcessingStartTimes messageId }
    else m

/-- `MetricsCollector.resetMetrics`: re-initialize all metrics and clear
the start-times map. -/
def resetMetrics (m : MetricsState) : MetricsState :=
  initializeMetrics m.priorityLevels

end MetricsCollector

/-- An SQS message as returned by the transport
(`AWS.SQS.Message`: all fields optional in the SDK). Attribute values
model `MessageAttributeValue.StringValue`. -/
structure SqsMessage where
  MessageId : Option String
  Body : Option String
  ReceiptHandle : Option String
  MessageAttributes : List (String × Option String)
deriving DecidableEq, Repr

/-- `PriorityMessage` (src/types): the facade's enriched output record. -/
structure PriorityMessage where
  id : String
  body : String
  priority : Nat
  receiptHandle : String
  sentTimestamp : Nat
  attributes : List (String × String)
  firstReceiveTimestamp : Option Nat
  receiveCount : Nat
deriving DecidableEq, Repr

/-- Error taxonomy surfaced by the facade's `sendMessage`. -/
inductive QueueError where
  | invalidPriority (priority : Int)
  | transportError
deriving DecidableEq, Repr

/-- Whole-service state for `PriorityQueueService`
(src/services/RedisManager.ts, facade part): configuration, the Redis
ordering index, the in-memory metrics collector, and a log of the calls
the facade has issued to the opaque SQS transport. -/
structure SystemState where
  priorityLevels : Nat
  starvationPreventionThreshold : Nat
  redis : RedisState
  metrics : MetricsState
  sqsCalls : List String
deriving DecidableEq

/-- State of a freshly constructed, connected service: empty class
queues, no metadata, no latency keys, zeroed metrics. -/
def initialState (priorityLevels starvationPreventionThreshold : Nat) : SystemState :=
  { priorityLevels := priorityLevels,
    starvationPreventionThreshold := starvationPreventionThreshold,
    redis := { queues := List.replicate priorityLevels [], metadata := [], latency := [] },
    metrics := MetricsCollector.initializeMetrics priorityLevels,
    sqsCalls := [] }

namespace PriorityQueueService

/-- Record a call to the opaque SQS transport in the log. -/
def logCall (st : SystemState) (name : String) : SystemState :=
  { st with sqsCalls := st.sqsCalls ++ [name] }

/-- The facade's post-operation `forEach` over
`redisManager.getQueueDepthByPriority()` feeding
`metricsCollector.updateQueueDepth(priority, depth)` class by class. -/
def updateDepthMetrics (m : MetricsState) (depths : List Nat) : MetricsState :=
  go m 0 depths
where
  go : MetricsState → Nat → List Nat → MetricsState
    | m, _, [] => m
    | m, priority, depth :: rest =>
      go (MetricsCollector.updateQueueDepth m priority depth) (priority + 1) rest

/-- `PriorityQueueService.sendMessage`: validate the priority (failing
with `InvalidPriority` before any transport or index call), submit to
SQS (`transportOutcome` is the opaque transport's response: `some id` on
acknowledgment, `none` when the submission throws), and only on success
register metadata and the queue entry in Redis and refresh depth
metrics. -/
def sendMessage (st : SystemState) (priority : Int) (_body : String)
    (transportOutcome : Option String) (now : Nat) :
    Except QueueError String × SystemState :=
  if isValidPriority priority st.priorityLevels then
    let st1 := logCall st "sqs.sendMessage"
    match transportOutcome with
    | none => (Except.error QueueError.transportError, st1)
    | some messageId =>
      let metadata : MessageMetadata :=
        { id := messageId, priority := priority.toNat, sentAt := now, receiveCount := 0 }
      let redis1 := RedisManager.addMessage st1.redis messageId priority.toNat metadata now
      let queueDepth := RedisManager.getQueueDepthByPriority redis1 st.priorityLevels
      let metrics1 := updateDepthMetrics st1.metrics queueDepth
      (Except.ok messageId, { st1 with redis := redis1, metrics := metrics1 })
  else (Except.error (QueueError.invalidPriority priority), st)

/-- The `for (const sqsMessage of sqsMessages)` loop of
`PriorityQueueService.receiveMessages` (lines 549-589): skip messages
without an id, silently drop messages without a metadata record, and for
each surviving message mark it received in Redis, build the
`PriorityMessage` from the metadata fetched before the mark, and start
latency tracking. -/
def receiveLoop (now : Nat) :
    List SqsMessage → List PriorityMessage → RedisState → MetricsState →
    List PriorityMessage × RedisState × MetricsState
  | [], acc, redis, metrics => (acc, redis, metrics)
  | sqsMessage :: rest, acc, redis, metrics =>
    match sqsMessage.MessageId with
    | none => receiveLoop now rest acc redis metrics
    | some messageId =>
      match RedisManager.getMessageMetadata redis messageId with
      | none => receiveLoop now rest acc redis metrics
      | some metadata =>
        let redis1 := RedisManager.markMessageAsReceived redis messageId now
        let attributes := sqsMessage.MessageAttributes.filterMap
          (fun kv => match kv.2 with
            | some v => some (kv.1, v)
            | none => none)
        let priorityMessage : PriorityMessage :=
          { id := messageId,
            body := sqsMessage.Body.getD "",
            priority := metadata.priority,
            receiptHandle := sqsMessage.ReceiptHandle.getD "",
            sentTimestamp := metadata.sentAt,
            attributes := attributes,
            firstReceiveTimestamp := metadata.firstReceivedAt,
            receiveCount := metadata.receiveCount }
        let metrics1 := MetricsCollector.startMessageProcessing metrics messageId now
        receiveLoop now rest (acc ++ [priorityMessage]) redis1 metrics1

/-- `PriorityQueueService.receiveMessages` (lines 520-604): ask the
dispatch engine for candidate ids; on no candidates return empty without
contacting SQS; otherwise issue one SQS receive (`sqsReturn` is the
opaque transport's batch), run the reconciliation loop, and refresh
depth metrics. -/
def receiveMessages (st : SystemState) (maxMessages : Nat)
    (sqsReturn : List SqsMessage) (now : Nat) :
    List PriorityMessage × SystemState :=
  let messageIds :=
    RedisManager.getNextMessages st.redis maxMessages st.starvationPreventionThreshold
  if messageIds.isEmpty then ([], st)
  else
    let st1 := logCall st "sqs.receiveMessages"
    if sqsReturn.isEmpty then ([], st1)
    else
      let step := receiveLoop now sqsReturn [] st1.redis st1.metrics
      let queueDepth := RedisManager.getQueueDepthByPriority step.2.1 st.priorityLevels
      let metrics2 := updateDepthMetrics step.2.2 queueDepth
      (step.1, { st1 with redis := step.2.1, metrics := metrics2 })

/-- `PriorityQueueService.deleteMessage`: always delete from SQS first;
when a (truthy) message id and a priority are supplied, also remove the
index entry, close out latency tracking and refresh depth metrics. -/
def deleteMessage (st : SystemState) (_receiptHandle : String)
    (messageId : Option String) (priority : Option Nat) (now : Nat) : SystemState :=
  let st1 := logCall st "sqs.deleteMessage"
  match messageId, priority with
  | some mid, some p =>
    if mid = "" then st1
    else
      let redis1 := RedisManager.removeMessage st1.redis mid p
      let metrics1 := MetricsCollector.endMessageProcessing st1.metrics mid p now
      let queueDepth := RedisManager.getQueueDepthByPriority redis1 st.priorityLevels
      let metrics2 := updateDepthMetrics metrics1 queueDepth
      { st1 with redis := redis1, metrics := metrics2 }
  | _, _ => st1

/-- `PriorityQueueService.changeMessageVisibility`: pure transport
pass-through. -/
def changeMessageVisibility (st : SystemState) (_receiptHandle : String)
    (_visibilityTimeout : Nat) : SystemState :=
  logCall st "sqs.changeMessageVisibility"

/-- `PriorityQueueService.getQueueDepthByPriority`: pass-through to the
Redis ordering index. -/
def getQueueDepthByPriority (st : SystemState) : List Nat :=
  RedisManager.getQueueDepthByPriority st.redis st.priorityLevels

/-- `PriorityQueueService.getProcessingLatencyByPriority`: pass-through
to the Redis latency keys. -/
def getProcessingLatencyByPriority (st : SystemState) : List Int :=
  RedisManager.getProcessingLatencyByPriority st.redis st.priorityLevels

/-- `PriorityQueueService.purgeQueue` (lines 686-699): purge the SQS
queue and reset the in-memory metrics collector. The Redis ordering
index is not touched. -/
def purgeQueue (st : SystemState) : SystemState :=
  let st1 := logCall st "sqs.purgeQueue"
  { st1 with metrics := MetricsCollector.resetMetrics st1.metrics }

end PriorityQueueService

/-- One public facade operation together with the opaque data the
external collaborators supply during it. -/
inductive FacadeOp where
  | send (priority : Int) (body : String) (transportOutcome : Option String)
  | receive (maxMessages : Nat) (sqsReturn : List SqsMessage)
  | delete (receiptHandle : String) (messageId : Option String) (priority : Option Nat)
  | changeVisibility (receiptHandle : String) (visibilityTimeout : Nat)
  | purge
  | depthQuery
  | latencyQuery

/-- State transition of a single facade operation (queries leave the
state unchanged). -/
def applyOp (st : SystemState) : FacadeOp → Nat → SystemState
  | .send priority body outcome, now =>
    (PriorityQueueService.sendMessage st priority body outcome now).2
  | .receive maxMessages sqsReturn, now =>
    (PriorityQueueService.receiveMessages st maxMessages sqsReturn now).2
  | .delete receiptHandle messageId priority, now =>
    PriorityQueueService.deleteMessage st receiptHandle messageId priority now
  | .changeVisibility receiptHandle visibilityTimeout, _ =>
    PriorityQueueService.changeMessageVisibility st receiptHandle visibilityTimeout
  | .purge, _ => PriorityQueueService.purgeQueue st
  | .depthQuery, _ => st
  | .latencyQuery, _ => st

/-- Run a sequence of facade operations, each with its clock reading. -/
def runOps (st : SystemState) : List (FacadeOp × Nat) → SystemState
  | [] => st
  | (op, now) :: rest => runOps (applyOp st op now) rest

/-- The metadata filter the reconciliation loop applies to the
transport's batch, relative to an index state. -/
def metadataFilter (redis : RedisState) (m : SqsMessage) : Option String :=
  match m.MessageId with
  | some messageId =>
    if (RedisManager.getMessageMetadata redis messageId).isSome then some messageId else none
  | none => none

/-- Normal-mode selection as worded by the spec (§4.2): "strictly greedy
by class order 0..N-1 — take up to `remaining = maxMessages - takenSoFar`
oldest identifiers from class 0, then from class 1, etc., stopping as
soon as `maxMessages` candidates are collected." Stated as a second,
spec-side definition to be compared with the code's `normalLoop`. -/
def greedyByClassSpec : Nat → List (List String) → List String
  | _, [] => []
  | maxMessages, q :: rest =>
    q.take maxMessages ++ greedyByClassSpec (maxMessages - min maxMessages q.length) rest

/-!  Concrete instances used by the per-claim evaluations and witnesses.
All service states below are built by running the embedded facade
operations from a freshly connected 3-level service with the default
starvation threshold 100, so they are reachable states of the system.  -/

/-- Transport view of the message the facade registered under id `a`. -/
def sqsA : SqsMessage :=
  { MessageId := some "a", Body := some "high", ReceiptHandle := some "ra",
    MessageAttributes := [] }

/-- Transport view of the message the facade registered under id `b`. -/
def sqsB : SqsMessage :=
  { MessageId := some "b", Body := some "low", ReceiptHandle := some "rb",
    MessageAttributes := [] }

/-- State after sending id `a` at class 0 and id `b` at class 1 (both
class depths are 1, far below the threshold 100). -/
def c1State : SystemState :=
  (PriorityQueueService.sendMessage
    ((PriorityQueueService.sendMessage (initialState 3 100) 0 "high" (some "a") 1).2)
    1 "low" (some "b") 2).2

/-- State after sending ids `a` then `b`, both at class 0. -/
def c3State : SystemState :=
  (PriorityQueueService.sendMessage
    ((PriorityQueueService.sendMessage (initialState 3 100) 0 "first" (some "a") 1).2)
    0 "second" (some "b") 2).2

/-- State after a single send of id `m1` at class 0. -/
def c4State : SystemState :=
  (PriorityQueueService.sendMessage (initialState 3 100) 0 "payload" (some "m1") 1).2

/-- Class queues with depths 918, 101 and 1: class 1 is above the
threshold 100, so a batch request enters starvation-prevention mode. -/
def c2Queues : List (List String) :=
  [(List.range 918).map (fun i => "a" ++ Nat.repr i),
   (List.range 101).map (fun i => "b" ++ Nat.repr i),
   ["c0"]]

/-- Ordering-index state holding `c2Queues`. -/
def c2Redis : RedisState :=
  { queues := c2Queues, metadata := [], latency := [] }

/-- A small ordering-index state in starvation-prevention mode (class 1
depth 3 with threshold 2), used to exercise the amended C2 theorem. -/
def c2SmallRedis : RedisState :=
  { queues := [[], ["m1", "m2", "m3"]], metadata := [], latency := [] }

/-- Index state used to exercise the normal-mode greedy theorem. -/
def c7Redis : RedisState :=
  { queues := [["a"], ["b", "c"], []], metadata := [], latency := [] }

/-- Index state with one metadata record, used to exercise
`markMessageAsReceived`. -/
def c9Redis : RedisState :=
  { queues := [["m"], [], []],
    metadata := [("m",
      { id := "m", priority := 0, sentAt := 1, firstReceivedAt := some 7,
        lastReceivedAt := some 7, receiveCount := 2 })],
    latency := [] }

/-- A full facade session: connect, send, receive, delete, purge. -/
def c10Ops : List (FacadeOp × Nat) :=
  [(FacadeOp.send 0 "payload" (some "a"), 1),
   (FacadeOp.receive 10 [sqsA], 2),
   (FacadeOp.delete "ra" (some "a") (some 0), 3),
   (FacadeOp.purge, 4),
   (FacadeOp.latencyQuery, 5)]

/-!  Helper lemmas about the key-value store.  -/

theorem getValue_nil {κ α : Type} [DecidableEq κ] (x : κ) :
    getValue ([] : List (κ × α)) x = none := rfl

theorem getValue_cons {κ α : Type} [DecidableEq κ] (kv : κ × α) (rest : List (κ × α)) (x : κ) :
    getValue (kv :: rest) x = if kv.1 = x then some kv.2 else getValue rest x := rfl

theorem getValue_eraseKey_ne {κ α : Type} [DecidableEq κ] (store : List (κ × α)) (k x : κ)
    (hxk : x ≠ k) :
    getValue (eraseKey store k) x = getValue store x := by
  induction store with
  | nil => rfl
  | cons kv rest ih =>
    by_cases h : kv.1 = k
    · have hne : ¬ kv.1 = x := by
        rw [h]; exact fun e => hxk e.symm
      rw [eraseKey, if_pos h, getValue_cons, if_neg hne, ih]
    · rw [eraseKey, if_neg h, getValue_cons, getValue_cons]
      by_cases hx : kv.1 = x
      · rw [if_pos hx, if_pos hx]
      · rw [if_neg hx, if_neg hx, ih]

theorem getValue_setValue {κ α : Type} [DecidableEq κ] (store : List (κ × α)) (k x : κ)
    (v : α) :
    getValue (setValue store k v) x = if x = k then some v else getValue store x := by
  by_cases hxk : x = k
  · subst hxk; simp [setValue, getValue_cons]
  · have hkx : ¬ k = x := fun e => hxk e.symm
    rw [setValue, getValue_cons, if_neg hkx, if_neg hxk]
    exact getValue_eraseKey_ne store k x hxk

/-!  Helper lemmas about `markMessageAsReceived`.  -/

theorem markMessageAsReceived_latency (r : RedisState) (messageId : String) (now : Nat) :
    (RedisManager.markMessageAsReceived r messageId now).latency = r.latency := by
  unfold RedisManager.markMessageAsReceived
  cases RedisManager.getMessageMetadata r messageId <;> rfl

theorem markMessageAsReceived_queues (r : RedisState) (messageId : String) (now : Nat) :
    (RedisManager.markMessageAsReceived r messageId now).queues = r.queues := by
  unfold RedisManager.markMessageAsReceived
  cases RedisManager.getMessageMetadata r messageId <;> rfl

theorem getMessageMetadata_mark_isSome (r : RedisState) (messageId x : String) (now : Nat) :
    (RedisManager.getMessageMetadata (RedisManager.markMessageAsReceived r messageId now) x).isSome
      = (RedisManager.getMessageMetadata r x).isSome := by
  unfold RedisManager.markMessageAsReceived
  cases h : RedisManager.getMessageMetadata r messageId with
  | none => rfl
  | some md =>
    unfold RedisManager.getMessageMetadata at h ⊢
    simp only [getValue_setValue]
    by_cases hx : x = messageId
    · subst hx; simp [h]
    · simp [hx]

/-!  Helper lemmas about the reconciliation loop of `receiveMessages`.  -/

theorem metadataFilter_mark (redis : RedisState) (messageId : String) (now : Nat) :
    metadataFilter (RedisManager.markMessageAsReceived redis messageId now) = metadataFilter redis := by
  funext m
  cases h : m.MessageId with
  | none => simp only [metadataFilter, h]
  | some mid => simp only [metadataFilter, h, getMessageMetadata_mark_isSome]

theorem receiveLoop_ids (now : Nat) :
    ∀ (msgs : List SqsMessage) (acc : List PriorityMessage) (redis : RedisState)
      (metrics : MetricsState),
      ((PriorityQueueService.receiveLoop now msgs acc redis metrics).1).map PriorityMessage.id
        = acc.map PriorityMessage.id ++ msgs.filterMap (metadataFilter redis) := by
  intro msgs
  induction msgs with
  | nil => intro acc redis metrics; simp [PriorityQueueService.receiveLoop]
  | cons m rest ih =>
    intro acc redis metrics
    cases hmid : m.MessageId with
    | none =>
      simp only [PriorityQueueService.receiveLoop, hmid]
      rw [ih]
      simp [List.filterMap_cons, metadataFilter, hmid]
    | some messageId =>
      cases hmd : RedisManager.getMessageMetadata redis messageId with
      | none =>
        simp only [PriorityQueueService.receiveLoop, hmid, hmd]
        rw [ih]
        simp [List.filterMap_cons, metadataFilter, hmid, hmd]
      | some metadata =>
        simp only [PriorityQueueService.receiveLoop, hmid, hmd]
        rw [ih, metadataFilter_mark]
        simp [List.filterMap_cons, metadataFilter, hmid, hmd]

theorem receiveLoop_latency (now : Nat) :
    ∀ (msgs : List SqsMessage) (acc : List PriorityMessage) (redis : RedisState)
      (metrics : MetricsState),
      ((PriorityQueueService.receiveLoop now msgs acc redis metrics).2.1).latency = redis.latency := by
  intro msgs
  induction msgs with
  | nil => intro acc redis metrics; rfl
  | cons m rest ih =>
    intro acc redis metrics
    cases hmid : m.MessageId with
    | none =>
      simp only [PriorityQueueService.receiveLoop, hmid]
      exact ih acc redis metrics
    | some messageId =>
      cases hmd : RedisManager.getMessageMetadata redis messageId with
      | none =>
        simp only [PriorityQueueService.receiveLoop, hmid, hmd]
        exact ih acc redis metrics
      | some metadata =>
        simp only [PriorityQueueService.receiveLoop, hmid, hmd]
        rw [ih, markMessageAsReceived_latency]

/-- Ids-level characterization of `receiveMessages`: once the dispatch
engine produced a non-empty candidate list, the returned messages are
exactly the transport's batch filtered to ids with a metadata record,
in the transport's order. -/
theorem receiveMessages_ids (st : SystemState) (maxMessages : Nat)
    (sqsReturn : List SqsMessage) (now : Nat)
    (h : RedisManager.getNextMessages st.redis maxMessages st.starvationPreventionThreshold ≠ []) :
    ((PriorityQueueService.receiveMessages st maxMessages sqsReturn now).1).map PriorityMessage.id
      = sqsReturn.filterMap (metadataFilter st.redis) := by
  have hne : (RedisManager.getNextMessages st.redis maxMessages
      st.starvationPreventionThreshold).isEmpty = false := by
    cases hc : RedisManager.getNextMessages st.redis maxMessages st.starvationPreventionThreshold with
    | nil => exact absurd hc h
    | cons a l => rfl
  simp only [PriorityQueueService.receiveMessages]
  rw [hne]
  simp only [Bool.false_eq_true, if_false]
  cases hs : sqsReturn with
  | nil => simp
  | cons m rest =>
    simp only [List.isEmpty_cons, Bool.false_eq_true, if_false]
    rw [receiveLoop_ids]
    simp [PriorityQueueService.logCall]

/-!  Preservation lemmas: no facade operation writes the Redis latency
keys, and none changes the configured number of priority levels.  -/

theorem sendMessage_latency (st : SystemState) (priority : Int) (body : String)
    (outcome : Option String) (now : Nat) :
    ((PriorityQueueService.sendMessage st priority body outcome now).2).redis.latency
      = st.redis.latency := by
  simp only [PriorityQueueService.sendMessage]
  split
  · cases outcome <;> rfl
  · rfl

theorem receiveMessages_latency (st : SystemState) (maxMessages : Nat)
    (sqsReturn : List SqsMessage) (now : Nat) :
    ((PriorityQueueService.receiveMessages st maxMessages sqsReturn now).2).redis.latency
      = st.redis.latency := by
  simp only [PriorityQueueService.receiveMessages]
  split
  · rfl
  · split
    · rfl
    · exact receiveLoop_latency now sqsReturn [] _ _

theorem deleteMessage_latency (st : SystemState) (receiptHandle : String)
    (messageId : Option String) (priority : Option Nat) (now : Nat) :
    (PriorityQueueService.deleteMessage st receiptHandle messageId priority now).redis.latency
      = st.redis.latency := by
  simp only [PriorityQueueService.deleteMessage]
  cases messageId with
  | none => cases priority <;> rfl
  | some mid =>
    cases priority with
    | none => rfl
    | some p =>
      by_cases h : mid = "" <;> simp [h, RedisManager.removeMessage, PriorityQueueService.logCall]

theorem applyOp_latency (st : SystemState) (op : FacadeOp) (now : Nat) :
    (applyOp st op now).redis.latency = st.redis.latency := by
  cases op with
  | send priority body outcome => exact sendMessage_latency st priority body outcome now
  | receive maxMessages sqsReturn => exact receiveMessages_latency st maxMessages sqsReturn now
  | delete receiptHandle messageId priority =>
    exact deleteMessage_latency st receiptHandle messageId priority now
  | changeVisibility receiptHandle visibilityTimeout => rfl
  | purge => rfl
  | depthQuery => rfl
  | latencyQuery => rfl

theorem sendMessage_levels (st : SystemState) (priority : Int) (body : String)
    (outcome : Option String) (now : Nat) :
    ((PriorityQueueService.sendMessage st priority body outcome now).2).priorityLevels
      = st.priorityLevels := by
  simp only [PriorityQueueService.sendMessage]
  split
  · cases outcome <;> rfl
  · rfl

theorem receiveMessages_levels (st : SystemState) (maxMessages : Nat)
    (sqsReturn : List SqsMessage) (now : Nat) :
    ((PriorityQueueService.receiveMessages st maxMessages sqsReturn now).2).priorityLevels
      = st.priorityLevels := by
  simp only [PriorityQueueService.receiveMessages]
  split
  · rfl
  · split <;> rfl

theorem deleteMessage_levels (st : SystemState) (receiptHandle : String)
    (messageId : Option String) (priority : Option Nat) (now : Nat) :
    (PriorityQueueService.deleteMessage st receiptHandle messageId priority now).priorityLevels
      = st.priorityLevels := by
  simp only [PriorityQueueService.deleteMessage]
  cases messageId with
  | none => cases priority <;> rfl
  | some mid =>
    cases priority with
    | none => rfl
    | some p => by_cases h : mid = "" <;> simp [h, PriorityQueueService.logCall]

theorem applyOp_levels (st : SystemState) (op : FacadeOp) (now : Nat) :
    (applyOp st op now).priorityLevels = st.priorityLevels := by
  cases op with
  | send priority body outcome => exact sendMessage_levels st priority body outcome now
  | receive maxMessages sqsReturn => exact receiveMessages_levels st maxMessages sqsReturn now
  | delete receiptHandle messageId priority =>
    exact deleteMessage_levels st receiptHandle messageId priority now
  | changeVisibility receiptHandle visibilityTimeout => rfl
  | purge => rfl
  | depthQuery => rfl
  | latencyQuery => rfl

theorem runOps_latency (ops : List (FacadeOp × Nat)) :
    ∀ st : SystemState, (runOps st ops).redis.latency = st.redis.latency := by
  induction ops with
  | nil => intro st; rfl
  | cons p rest ih =>
    intro st
    rw [runOps, ih, applyOp_latency]

theorem runOps_levels (ops : List (FacadeOp × Nat)) :
    ∀ st : SystemState, (runOps st ops).priorityLevels = st.priorityLevels := by
  induction ops with
  | nil => intro st; rfl
  | cons p rest ih =>
    intro st
    rw [runOps, ih, applyOp_levels]

theorem latencyQuery_of_empty (r : RedisState) (priorityLevels : Nat)
    (h : r.latency = []) :
    RedisManager.getProcessingLatencyByPriority r priorityLevels
      = List.replicate priorityLevels 0 := by
  unfold RedisManager.getProcessingLatencyByPriority
  rw [h]
  have : ∀ ns : List Nat, ns.map (fun priority =>
      match getValue ([] : List (Nat × Rat)) priority with
      | some v => round v
      | none => (0 : Int)) = List.replicate ns.length 0 := by
    intro ns
    induction ns with
    | nil => rfl
    | cons n rest ih => simp [getValue_nil, ih, List.replicate_succ]
  rw [this, List.length_range]

/-!  Dispatch-engine lemmas.  -/

theorem foldl_add_shift : ∀ (l : List Nat) (n : Nat),
    l.foldl (fun sum size => sum + size) n = n + l.foldl (fun sum size => sum + size) 0 := by
  intro l
  induction l with
  | nil => intro n; simp
  | cons a rest ih =>
    intro n
    rw [List.foldl_cons, List.foldl_cons, ih (n + a), ih (0 + a)]
    omega

theorem sumSizes_nil : RedisManager.sumSizes [] = 0 := rfl

theorem sumSizes_cons (a : Nat) (l : List Nat) :
    RedisManager.sumSizes (a :: l) = a + RedisManager.sumSizes l := by
  unfold RedisManager.sumSizes
  rw [List.foldl_cons, foldl_add_shift]
  omega

theorem greedyByClassSpec_zero : ∀ qs : List (List String), greedyByClassSpec 0 qs = [] := by
  intro qs
  induction qs with
  | nil => rfl
  | cons q rest ih => simp [greedyByClassSpec, ih]

theorem greedyByClassSpec_length_le :
    ∀ (qs : List (List String)) (maxMessages : Nat),
      (greedyByClassSpec maxMessages qs).length ≤ maxMessages := by
  intro qs
  induction qs with
  | nil => intro maxMessages; simp [greedyByClassSpec]
  | cons q rest ih =>
    intro maxMessages
    simp only [greedyByClassSpec, List.length_append, List.length_take]
    have := ih (maxMessages - min maxMessages q.length)
    omega

theorem greedyByClassSpec_length_le_total :
    ∀ (qs : List (List String)) (maxMessages : Nat),
      (greedyByClassSpec maxMessages qs).length ≤ RedisManager.sumSizes (qs.map List.length) := by
  intro qs
  induction qs with
  | nil => intro maxMessages; simp [greedyByClassSpec]
  | cons q rest ih =>
    intro maxMessages
    simp only [greedyByClassSpec, List.length_append, List.length_take, List.map_cons,
      sumSizes_cons]
    have := ih (maxMessages - min maxMessages q.length)
    omega

theorem normalLoop_eq_greedy (maxMessages : Nat) :
    ∀ (qs : List (List String)) (acc : List String), acc.length ≤ maxMessages →
      RedisManager.normalLoop maxMessages qs acc
        = acc ++ greedyByClassSpec (maxMessages - acc.length) qs := by
  intro qs
  induction qs with
  | nil => intro acc h; simp [RedisManager.normalLoop, greedyByClassSpec]
  | cons q rest ih =>
    intro acc h
    simp only [RedisManager.normalLoop, greedyByClassSpec]
    by_cases hq : 0 < q.length
    · rw [if_pos hq]
      by_cases ht : 0 < min (maxMessages - acc.length) q.length
      · rw [if_pos ht]
        simp only [List.length_append, List.length_take]
        by_cases hbr : maxMessages ≤ acc.length + min (min (maxMessages - acc.length) q.length) q.length
        · rw [if_pos hbr]
          have heq : min (maxMessages - acc.length) q.length = maxMessages - acc.length := by omega
          rw [heq, Nat.sub_self, greedyByClassSpec_zero, List.append_nil]
        · rw [if_neg hbr]
          have hql : min (maxMessages - acc.length) q.length = q.length := by omega
          rw [hql] at hbr ⊢
          rw [List.take_length]
          rw [ih _ (by simp only [List.length_append]; omega)]
          simp only [List.length_append]
          have h1 : q.take (maxMessages - acc.length) = q :=
            List.take_of_length_le (by omega)
          have h3 : maxMessages - (acc.length + q.length)
              = maxMessages - acc.length - q.length := by omega
          rw [h1, h3, List.append_assoc]
      · rw [if_neg ht]
        have hz : maxMessages - acc.length = 0 := by omega
        rw [ih acc h, hz, greedyByClassSpec_zero]
        simp [greedyByClassSpec_zero]
    · rw [if_neg hq]
      have hq0 : q = [] := List.length_eq_zero.mp (by omega)
      subst hq0
      rw [ih acc h]
      simp [greedyByClassSpec]

theorem starvationLoop_length_le (remaining total : Nat) :
    ∀ (qs : List (List String)) (acc : List String) (allocated : Nat),
      acc.length = allocated → allocated ≤ remaining →
      (RedisManager.starvationLoop remaining total qs acc allocated).length ≤ remaining := by
  intro qs
  induction qs with
  | nil =>
    intro acc allocated hlen hle
    simpa [RedisManager.starvationLoop, hlen] using hle
  | cons q rest ih =>
    intro acc allocated hlen hle
    simp only [RedisManager.starvationLoop]
    by_cases hq : 0 < q.length
    · rw [if_pos hq]
      set t := min (min (max 1 (remaining * q.length / total)) q.length)
        (remaining - allocated) with htdef
      have ht_q : t ≤ q.length := by omega
      have ht_r : t ≤ remaining - allocated := by omega
      by_cases htpos : 0 < t
      · rw [if_pos htpos]
        by_cases hbr : remaining ≤ allocated + (q.take t).length
        · rw [if_pos hbr]
          simp only [List.length_append, List.length_take, hlen]
          omega
        · rw [if_neg hbr]
          refine ih (acc ++ q.take t) (allocated + (q.take t).length) ?_ ?_
          · rw [List.length_append, hlen]
          · rw [List.length_take]
            omega
      · rw [if_neg htpos]
        exact ih acc allocated hlen hle
    · rw [if_neg hq]
      exact ih acc allocated hlen hle

/-- Allocation structure of the starvation-prevention loop: the
accumulated output survives, and every non-empty class is either served
at least one of its own identifiers or the loop has already produced a
full batch of exactly `remaining` identifiers by the time that class
would be visited. -/
theorem starvationLoop_serves (remaining total : Nat) :
    ∀ (qs : List (List String)) (acc : List String) (allocated : Nat),
      acc.length = allocated → allocated < remaining →
      (∀ x ∈ acc, x ∈ RedisManager.starvationLoop remaining total qs acc allocated) ∧
      (∀ c, c < qs.length → qs.getD c [] ≠ [] →
        (∃ x, x ∈ RedisManager.starvationLoop remaining total qs acc allocated ∧
          x ∈ qs.getD c []) ∨
        (RedisManager.starvationLoop remaining total qs acc allocated).length = remaining) := by
  intro qs
  induction qs with
  | nil =>
    intro acc allocated hlen hlt
    refine ⟨fun x hx => hx, fun c hc _ => absurd hc (Nat.not_lt_zero c)⟩
  | cons q rest ih =>
    intro acc allocated hlen hlt
    simp only [RedisManager.starvationLoop]
    by_cases hq : 0 < q.length
    · rw [if_pos hq]
      set t := min (min (max 1 (remaining * q.length / total)) q.length)
        (remaining - allocated) with htdef
      have htpos : 0 < t := by
        have h1 : 1 ≤ max 1 (remaining * q.length / total) := le_max_left 1 _
        omega
      rw [if_pos htpos]
      have ht_q : t ≤ q.length := by omega
      have hlen_take : (q.take t).length = t := by
        rw [List.length_take]; omega
      by_cases hbr : remaining ≤ allocated + (q.take t).length
      · rw [if_pos hbr]
        refine ⟨fun x hx => List.mem_append_left _ hx, fun c hc hne => Or.inr ?_⟩
        rw [List.length_append, hlen, hlen_take]
        rw [hlen_take] at hbr
        omega
      · rw [if_neg hbr]
        have hmain := ih (acc ++ q.take t) (allocated + (q.take t).length)
          (by rw [List.length_append, hlen]) (by omega)
        refine ⟨fun x hx => hmain.1 x (List.mem_append_left _ hx), fun c hc hne => ?_⟩
        cases c with
        | zero =>
          left
          have hqt : q.take t ≠ [] := by
            intro he
            rw [he] at hlen_take
            simp at hlen_take
            omega
          obtain ⟨y, hy⟩ := List.exists_mem_of_ne_nil (q.take t) hqt
          refine ⟨y, hmain.1 y (List.mem_append_right _ hy), ?_⟩
          rw [List.getD_cons_zero]
          exact List.take_subset t q hy
        | succ c1 =>
          have hres := hmain.2 c1 (by simpa using hc) (by simpa using hne)
          simpa [List.getD_cons_succ] using hres
    · rw [if_neg hq]
      have hmain := ih acc allocated hlen hlt
      refine ⟨hmain.1, fun c hc hne => ?_⟩
      cases c with
      | zero =>
        exfalso
        apply hne
        rw [List.getD_cons_zero]
        exact List.length_eq_zero.mp (by omega)
      | succ c1 =>
        have hres := hmain.2 c1 (by simpa using hc) (by simpa using hne)
        simpa [List.getD_cons_succ] using hres

/-!  Claim theorems.  -/

/-- Claim C1: the claim says that below the starvation threshold
`receiveMessages` returns class-0 messages before class-1 messages
regardless of the order the transport returns them in. The code does
not reorder: it emits surfaced messages in the transport batch's order.
This theorem evaluates the embedded facade at a failing input: after
sending id `a` at class 0 and id `b` at class 1 (both depths 1, below
the threshold 100), a receive whose transport batch is `[b, a]` returns
the class-1 message `b` before the class-0 message `a`. -/
theorem C1_receive_returns_transport_order :
    ((PriorityQueueService.receiveMessages c1State 10 [sqsB, sqsA] 3).1.map
      (fun m => (m.id, m.priority))) = [("b", 1), ("a", 0)] := by
  decide

set_option maxRecDepth 40000 in
/-- Claim C2 counterexample: with class depths 918, 101 and 1, class 1
above the threshold 100, a batch request for 10 messages allocates 9
identifiers to class 0 and 1 to class 1, exhausting the budget before
class 2 is visited, so the non-empty class 2 contributes no identifier —
refuting the claim that every non-empty class is always represented
(including its concrete instance: class 1 depth 101, threshold 100,
request 10). -/
theorem C2_starved_class_counterexample :
    c2Queues.map List.length = [918, 101, 1] ∧
    "c0" ∈ c2Queues.getD 2 [] ∧
    (RedisManager.getNextMessages c2Redis 10 100).length = 10 ∧
    ∀ x ∈ RedisManager.getNextMessages c2Redis 10 100, x ∉ c2Queues.getD 2 [] := by
  decide

/-- Claim C2 (amended): in starvation-prevention mode every non-empty
class either contributes at least one of its own identifiers to the
batch, or the batch is already completely full — it holds exactly
`min maxMessages totalBacklog` identifiers, the budget having been
exhausted by lower-index classes before that class was visited. -/
theorem C2_starvation_mode_serves_class_or_batch_full
    (r : RedisState) (maxMessages starvationThreshold : Nat)
    (hmode : ((r.queues.map List.length).drop 1).any
      (fun size => starvationThreshold < size) = true) :
    ∀ c, c < r.queues.length → r.queues.getD c [] ≠ [] →
      (∃ x, x ∈ RedisManager.getNextMessages r maxMessages starvationThreshold ∧
        x ∈ r.queues.getD c []) ∨
      (RedisManager.getNextMessages r maxMessages starvationThreshold).length
        = min maxMessages (RedisManager.sumSizes (r.queues.map List.length)) := by
  intro c hc hne
  simp only [RedisManager.getNextMessages]
  rw [if_pos hmode]
  by_cases h0 : 0 < min maxMessages (RedisManager.sumSizes (r.queues.map List.length))
  · rw [if_pos h0]
    exact (starvationLoop_serves _ _ r.queues [] 0 rfl h0).2 c hc hne
  · rw [if_neg h0]
    right
    simp only [List.length_nil]
    omega

/-- Witness for the amended C2 theorem at a concrete state: class
depths 0 and 3 with threshold 2 (starvation mode), class 1 non-empty. -/
theorem C2_starvation_mode_witness :
    (∃ x, x ∈ RedisManager.getNextMessages c2SmallRedis 10 2 ∧
      x ∈ c2SmallRedis.queues.getD 1 []) ∨
    (RedisManager.getNextMessages c2SmallRedis 10 2).length
      = min 10 (RedisManager.sumSizes (c2SmallRedis.queues.map List.length)) :=
  C2_starvation_mode_serves_class_or_batch_full c2SmallRedis 10 2 (by decide) 1
    (by decide) (by decide)

/-- Claim C3 counterexample: the claim says every returned message's
identifier is among that call's candidate identifiers. After sending
`a` then `b` at class 0, a receive with `maxMessages = 1` has candidate
list `["a"]`, yet when the transport returns message `b` (which has a
metadata record) the facade surfaces `b` — an identifier not among the
candidates. -/
theorem C3_result_not_among_candidates :
    RedisManager.getNextMessages c3State.redis 1 c3State.starvationPreventionThreshold
      = ["a"] ∧
    ((PriorityQueueService.receiveMessages c3State 1 [sqsB] 3).1.map PriorityMessage.id)
      = ["b"] ∧
    "b" ∉ RedisManager.getNextMessages c3State.redis 1 c3State.starvationPreventionThreshold := by
  decide

/-- Claim C3 (amended): per receive call, the facade's result is not the
intersection of the candidate identifiers with the transport batch: once
the candidate list is non-empty (its only role is to short-circuit the
call when empty), the returned identifiers are exactly the
transport-returned identifiers that have a metadata record in the
ordering index, in the transport's order, whether or not they are among
the candidates. -/
theorem C3_receive_filters_by_metadata_not_candidates
    (st : SystemState) (maxMessages : Nat) (sqsReturn : List SqsMessage) (now : Nat)
    (h : RedisManager.getNextMessages st.redis maxMessages
      st.starvationPreventionThreshold ≠ []) :
    ((PriorityQueueService.receiveMessages st maxMessages sqsReturn now).1).map
        PriorityMessage.id
      = sqsReturn.filterMap (metadataFilter st.redis) :=
  receiveMessages_ids st maxMessages sqsReturn now h

/-- Witness for the amended C3 theorem at a concrete reachable state. -/
theorem C3_receive_filters_witness :
    ((PriorityQueueService.receiveMessages c3State 1 [sqsB] 3).1).map PriorityMessage.id
      = [sqsB].filterMap (metadataFilter c3State.redis) :=
  C3_receive_filters_by_metadata_not_candidates c3State 1 [sqsB] 3 (by decide)

/-- Claim C4 counterexample: the claim says `purgeQueue` leaves
`queueDepthByPriority` all-zero. `purgeQueue` purges the transport and
resets the in-memory metrics collector but never clears the Redis
ordering index, which is what the depth query reads: after sending one
class-0 message and purging, the query still reports depth 1. -/
theorem C4_depth_survives_purge :
    PriorityQueueService.getQueueDepthByPriority (PriorityQueueService.purgeQueue c4State)
      = [1, 0, 0] ∧
    PriorityQueueService.getQueueDepthByPriority (PriorityQueueService.purgeQueue c4State)
      ≠ [0, 0, 0] := by
  decide

/-- Claim C4 (amended): `purgeQueue` always succeeds (it is a total
operation, also on an already-empty queue), resets the in-memory metrics
collector to its all-zero initial state, and leaves
`processingLatencyByPriority` at zero for every class whenever the
latency keys are unwritten (as they are in every reachable state); but
it does not touch the Redis ordering index, so `queueDepthByPriority`
still reports the pre-purge per-class depths rather than zero. -/
theorem C4_purge_resets_collector_not_index (st : SystemState) :
    (PriorityQueueService.purgeQueue st).redis = st.redis ∧
    (PriorityQueueService.purgeQueue st).metrics
      = MetricsCollector.initializeMetrics st.metrics.priorityLevels ∧
    PriorityQueueService.getQueueDepthByPriority (PriorityQueueService.purgeQueue st)
      = PriorityQueueService.getQueueDepthByPriority st ∧
    (st.redis.latency = [] →
      PriorityQueueService.getProcessingLatencyByPriority (PriorityQueueService.purgeQueue st)
        = List.replicate st.priorityLevels 0) := by
  refine ⟨rfl, rfl, rfl, fun h => ?_⟩
  exact latencyQuery_of_empty st.redis st.priorityLevels h

/-- Witness for the amended C4 theorem on a freshly connected (empty)
service, showing in particular that purging an already-empty queue
leaves every latency reading at zero. -/
theorem C4_purge_witness :
    PriorityQueueService.getProcessingLatencyByPriority
        (PriorityQueueService.purgeQueue (initialState 3 100))
      = List.replicate 3 0 :=
  (C4_purge_resets_collector_not_index (initialState 3 100)).2.2.2 rfl

theorem metadataFilter_eq_some (redis : RedisState) (m : SqsMessage) (mid : String) :
    metadataFilter redis m = some mid ↔
      m.MessageId = some mid ∧
        (RedisManager.getMessageMetadata redis mid).isSome = true := by
  cases hai : m.MessageId with
  | none => simp [metadataFilter, hai]
  | some x =>
    by_cases hs : (RedisManager.getMessageMetadata redis x).isSome = true
    · simp only [metadataFilter, hai, if_pos hs]
      constructor
      · intro he
        cases he
        exact ⟨rfl, hs⟩
      · intro hpair
        cases hpair.1
        rfl
    · simp only [metadataFilter, hai, if_neg hs]
      constructor
      · intro he
        cases he
      · intro hpair
        cases hpair.1
        exact absurd hpair.2 hs

/-- Claim C5: once the dispatch engine produced candidates (so the
transport is consulted at all), a transport-returned message is included
in the facade's result exactly when a metadata record exists for its
identifier in the ordering index; a message without a record is dropped
from the result without any error (the embedded facade is a total
function). -/
theorem C5_surfaced_iff_metadata_record
    (st : SystemState) (maxMessages : Nat) (sqsReturn : List SqsMessage) (now : Nat)
    (h : RedisManager.getNextMessages st.redis maxMessages
      st.starvationPreventionThreshold ≠ [])
    (m : SqsMessage) (messageId : String)
    (hm : m ∈ sqsReturn) (hid : m.MessageId = some messageId) :
    (∃ pm ∈ (PriorityQueueService.receiveMessages st maxMessages sqsReturn now).1,
        pm.id = messageId) ↔
      (RedisManager.getMessageMetadata st.redis messageId).isSome = true := by
  have hchar := receiveMessages_ids st maxMessages sqsReturn now h
  constructor
  · rintro ⟨pm, hpm, hpmid⟩
    have hmem : messageId ∈ ((PriorityQueueService.receiveMessages st maxMessages
        sqsReturn now).1).map PriorityMessage.id :=
      List.mem_map.mpr ⟨pm, hpm, hpmid⟩
    rw [hchar] at hmem
    obtain ⟨a, ha, hfa⟩ := List.mem_filterMap.mp hmem
    exact ((metadataFilter_eq_some st.redis a messageId).mp hfa).2
  · intro hs
    have hmem : messageId ∈ sqsReturn.filterMap (metadataFilter st.redis) :=
      List.mem_filterMap.mpr ⟨m, hm, (metadataFilter_eq_some st.redis m messageId).mpr
        ⟨hid, hs⟩⟩
    rw [← hchar] at hmem
    obtain ⟨pm, hpm, hpmid⟩ := List.mem_map.mp hmem
    exact ⟨pm, hpm, hpmid⟩

/-- Witness for C5 at a concrete reachable state: message `a` has a
metadata record and is surfaced. -/
theorem C5_surfaced_iff_metadata_witness :
    (∃ pm ∈ (PriorityQueueService.receiveMessages c1State 10 [sqsA] 5).1, pm.id = "a") ↔
      (RedisManager.getMessageMetadata c1State.redis "a").isSome = true :=
  C5_surfaced_iff_metadata_record c1State 10 [sqsA] 5 (by decide) sqsA "a"
    (by simp) (by decide)

/-- Claim C6: `sendMessage` with an out-of-range priority fails with the
invalid-priority error and returns the state completely unchanged — in
particular the transport-call log and the Redis index are untouched, so
the validation happens before any transport or index operation; and when
the transport submission itself fails (outcome `none`), the call fails
with a transport error and the Redis index is unchanged, so no orphan
index entry is created. -/
theorem C6_send_validates_and_creates_no_orphan
    (st : SystemState) (priority : Int) (body : String) (outcome : Option String)
    (now : Nat) :
    (isValidPriority priority st.priorityLevels = false →
      PriorityQueueService.sendMessage st priority body outcome now
        = (Except.error (QueueError.invalidPriority priority), st)) ∧
    (outcome = none →
      ((PriorityQueueService.sendMessage st priority body outcome now).2).redis = st.redis ∧
      (isValidPriority priority st.priorityLevels = true →
        PriorityQueueService.sendMessage st priority body outcome now
          = (Except.error QueueError.transportError,
             PriorityQueueService.logCall st "sqs.sendMessage"))) := by
  cases hv : isValidPriority priority st.priorityLevels with
  | false =>
    refine ⟨fun _ => ?_, fun ho => ⟨?_, fun hc => ?_⟩⟩
    · simp only [PriorityQueueService.sendMessage, hv, Bool.false_eq_true, if_false]
    · simp only [PriorityQueueService.sendMessage, hv, Bool.false_eq_true, if_false]
    · exact Bool.noConfusion hc
  | true =>
    refine ⟨fun hc => ?_, fun ho => ?_⟩
    · exact Bool.noConfusion hc
    · subst ho
      constructor
      · simp only [PriorityQueueService.sendMessage, hv, if_true]
        rfl
      · intro _
        simp only [PriorityQueueService.sendMessage, hv, if_true]

/-- Witness for C6: a send at priority 5 against the 3-level
configuration fails with the invalid-priority error and leaves the state
unchanged; a send at the valid priority 1 whose transport submission
fails yields the transport error. -/
theorem C6_send_validates_witness :
    PriorityQueueService.sendMessage (initialState 3 100) 5 "payload" (some "x") 0
      = (Except.error (QueueError.invalidPriority 5), initialState 3 100) ∧
    PriorityQueueService.sendMessage (initialState 3 100) 1 "payload" none 0
      = (Except.error QueueError.transportError,
         PriorityQueueService.logCall (initialState 3 100) "sqs.sendMessage") :=
  ⟨(C6_send_validates_and_creates_no_orphan (initialState 3 100) 5 "payload" (some "x") 0).1
      (by decide),
   ((C6_send_validates_and_creates_no_orphan (initialState 3 100) 1 "payload" none 0).2
      rfl).2 (by decide)⟩

/-- Claim C7: in normal mode (no class of index 1..N-1 above the
threshold), `getNextMessages` coincides with the spec's strictly greedy
ascending-class selection: up to the remaining budget of oldest
identifiers from class 0, then class 1, and so on, stopping at
`maxMessages` — so a lower class contributes only when the higher
classes did not fill the batch. -/
theorem C7_normal_mode_is_strict_greedy
    (r : RedisState) (maxMessages starvationThreshold : Nat)
    (hmode : ((r.queues.map List.length).drop 1).any
      (fun size => starvationThreshold < size) = false) :
    RedisManager.getNextMessages r maxMessages starvationThreshold
      = greedyByClassSpec maxMessages r.queues := by
  simp only [RedisManager.getNextMessages]
  rw [if_neg (by rw [hmode]; exact Bool.false_ne_true)]
  have heq := normalLoop_eq_greedy maxMessages r.queues [] (Nat.zero_le _)
  simpa using heq

/-- Witness for C7 at a concrete below-threshold state. -/
theorem C7_normal_mode_witness :
    RedisManager.getNextMessages c7Redis 5 100 = greedyByClassSpec 5 c7Redis.queues :=
  C7_normal_mode_is_strict_greedy c7Redis 5 100 (by decide)

/-- Claim C8: in both modes the number of identifiers `getNextMessages`
returns never exceeds `maxMessages` nor the total number of identifiers
present across all class queues at the time the depths were read. -/
theorem C8_batch_never_exceeds_budget_or_backlog
    (r : RedisState) (maxMessages starvationThreshold : Nat) :
    (RedisManager.getNextMessages r maxMessages starvationThreshold).length ≤ maxMessages ∧
    (RedisManager.getNextMessages r maxMessages starvationThreshold).length
      ≤ RedisManager.sumSizes (r.queues.map List.length) := by
  simp only [RedisManager.getNextMessages]
  by_cases hmode : ((r.queues.map List.length).drop 1).any
      (fun size => starvationThreshold < size) = true
  · rw [if_pos hmode]
    by_cases h0 : 0 < min maxMessages (RedisManager.sumSizes (r.queues.map List.length))
    · rw [if_pos h0]
      have hl := starvationLoop_length_le
        (min maxMessages (RedisManager.sumSizes (r.queues.map List.length)))
        (RedisManager.sumSizes (r.queues.map List.length)) r.queues [] 0 rfl (Nat.zero_le _)
      constructor <;> omega
    · rw [if_neg h0]
      simp
  · rw [if_neg hmode]
    have heq := normalLoop_eq_greedy maxMessages r.queues [] (Nat.zero_le _)
    simp only [List.nil_append, List.length_nil, Nat.sub_zero] at heq
    rw [heq]
    exact ⟨greedyByClassSpec_length_le r.queues maxMessages,
      greedyByClassSpec_length_le_total r.queues maxMessages⟩

/-- Claim C9: `markMessageAsReceived` on an id with a metadata record
increments `receiveCount` by exactly one (so it strictly increases and
never decreases across delivery attempts), sets `lastReceivedAt` to the
current time, preserves a previously set (nonzero-timestamp)
`firstReceivedAt` and sets it to now only when it was unset; on an id
without a record it is a no-op that signals nothing. The nonzero
hypothesis reflects that stored timestamps are `Date.now()` readings
(the code tests `firstReceivedAt` for JS truthiness, under which a `0`
timestamp would count as unset). -/
theorem C9_mark_received_updates_record
    (r : RedisState) (messageId : String) (now : Nat) :
    (RedisManager.getMessageMetadata r messageId = none →
      RedisManager.markMessageAsReceived r messageId now = r) ∧
    (∀ md, RedisManager.getMessageMetadata r messageId = some md →
      ∃ md1, RedisManager.getMessageMetadata
          (RedisManager.markMessageAsReceived r messageId now) messageId = some md1 ∧
        md1.receiveCount = md.receiveCount + 1 ∧
        md1.lastReceivedAt = some now ∧
        (md.firstReceivedAt = none → md1.firstReceivedAt = some now) ∧
        (∀ t, md.firstReceivedAt = some t → 0 < t → md1.firstReceivedAt = some t)) := by
  constructor
  · intro h
    rw [RedisManager.markMessageAsReceived, h]
  · intro md h
    simp only [RedisManager.markMessageAsReceived, h]
    let md1 : MessageMetadata :=
      { md with
        lastReceivedAt := some now,
        firstReceivedAt := some (truthyOr md.firstReceivedAt now),
        receiveCount := md.receiveCount + 1 }
    refine ⟨md1, ?_, rfl, rfl, ?_, ?_⟩
    · simp [RedisManager.getMessageMetadata, getValue_setValue]
    · intro hf
      simp [truthyOr, hf]
    · intro t hf ht
      simp only [hf, truthyOr]
      rw [if_neg (by omega)]

/-- Witness for C9: marking the recorded id `m` (receive count 2, first
received at 7) at time 9 yields receive count 3, last received 9, first
received still 7; marking an unrecorded id is a no-op. -/
theorem C9_mark_received_witness :
    RedisManager.markMessageAsReceived c9Redis "ghost" 9 = c9Redis ∧
    ∃ md1, RedisManager.getMessageMetadata
        (RedisManager.markMessageAsReceived c9Redis "m" 9) "m" = some md1 ∧
      md1.receiveCount = 3 ∧ md1.lastReceivedAt = some 9 ∧
      md1.firstReceivedAt = some 7 := by
  constructor
  · exact (C9_mark_received_updates_record c9Redis "ghost" 9).1 (by decide)
  · obtain ⟨md1, hget, hrc, hlast, _, hkeep⟩ :=
      (C9_mark_received_updates_record c9Redis "m" 9).2
        { id := "m", priority := 0, sentAt := 1, firstReceivedAt := some 7,
          lastReceivedAt := some 7, receiveCount := 2 } (by decide)
    exact ⟨md1, hget, by rw [hrc], hlast, hkeep 7 rfl (by omega)⟩

/-- Claim C10: across every sequence of facade operations started from a
state whose latency keys are unwritten (as in a freshly connected
service), the public `processingLatencyByPriority` query returns zero
for every class: the per-class latency keys it reads are written only by
`storeProcessingLatency`, which no facade operation invokes, and the
exponentially-smoothed latency the in-memory collector computes at
delete time is never exposed through this query. -/
theorem C10_latency_query_always_zero
    (ops : List (FacadeOp × Nat)) (st : SystemState) (h : st.redis.latency = []) :
    PriorityQueueService.getProcessingLatencyByPriority (runOps st ops)
      = List.replicate st.priorityLevels 0 := by
  unfold PriorityQueueService.getProcessingLatencyByPriority
  rw [runOps_levels]
  exact latencyQuery_of_empty _ _ (by rw [runOps_latency]; exact h)

/-- Witness for C10: a full send / receive / delete / purge session on a
fresh 3-level service still reads zero latency for every class. -/
theorem C10_latency_query_witness :
    PriorityQueueService.getProcessingLatencyByPriority
        (runOps (initialState 3 100) c10Ops)
      = List.replicate 3 0 :=
  C10_latency_query_always_zero c10Ops (initialState 3 100) rfl

end SPQS
